import Mathlib

/-!
Verification of the Programming-in-Python repository (files src/A2/A2.py and
src/A3/assignment3_code.py) against its natural-language specification.

The Python code is shallowly embedded: every method becomes a pure Lean
function over explicit data.  Python integers become Nat or Int, Python
floats become exact rationals (the decimal literals of the source are
representable exactly), raised exceptions become an Except error value, and
console output is dropped (it is a pure effect that no claim depends on);
the control flow that can raise while printing is kept.  Methods that mutate
an object return the new held collection explicitly; methods that never
assign to the object return the receiver state unchanged alongside their
result, mirroring the absence of any assignment in the source body.
-/

/-- Error kinds raised by the embedded code.  Python exception classes map as
follows: ValueError on a bad argument value becomes invalidInput, TypeError
becomes typeMismatch, ValueError on a size precondition becomes invalidState,
KeyError becomes keyError, IndexError becomes indexError, NameError becomes
nameError, ZeroDivisionError becomes zeroDivisionError, AttributeError
becomes attributeError. -/
inductive Err
  | invalidInput
  | typeMismatch
  | missingData
  | invalidState
  | keyError
  | indexError
  | nameError
  | zeroDivisionError
  | attributeError
deriving DecidableEq, Repr

instance {ε α : Type} [DecidableEq ε] [DecidableEq α] : DecidableEq (Except ε α) := fun
  | .ok a, .ok b => if h : a = b then .isTrue (by rw [h]) else .isFalse (by simp [h])
  | .ok _, .error _ => .isFalse (by simp)
  | .error _, .ok _ => .isFalse (by simp)
  | .error e, .error f => if h : e = f then .isTrue (by rw [h]) else .isFalse (by simp [h])

/-- Numeric value of an ASCII digit character, as Python int(d) on a digit. -/
def charDigit (c : Char) : Nat := c.toNat - 48

/-- Python str.isdigit: true iff the string is nonempty and every character
is a digit.  Restricted to ASCII digits, the only ones the claims involve. -/
def pyIsdigit (s : String) : Bool := !s.data.isEmpty && s.data.all Char.isDigit

namespace bookData

/-- Embeds bookData.valid (assignment3_code.py lines 426-476).  Checks the
string form is 13 digit characters, raising ValueError otherwise; weights the
first 12 digits (odd 0-based positions times 3), sums them, and compares the
final digit with 10 minus the sum modulo 10. -/
def valid (isbn : String) : Except Err Bool :=
  if !(pyIsdigit isbn) || isbn.length != 13 then
    .error .invalidInput
  else
    let digits := isbn.data.map charDigit
    let products := (List.range 12).map
      (fun i => if i % 2 = 1 then digits.getD i 0 * 3 else digits.getD i 0)
    let cumulative_sum := products.sum
    let check_digit := 10 - cumulative_sum % 10
    if digits.getLastD 0 ≠ check_digit then .ok false else .ok true

/-- Digit of the string at a 0-based position, spec-side view. -/
def digitAt (s : String) (i : Nat) : Nat := charDigit (s.data.getD i '0')

/-- The weighted checksum described by the specification: digits at odd
0-based positions 0-11 count three times, digits at even positions once. -/
def weightedSum (s : String) : Nat :=
  ∑ i in Finset.range 12, (if i % 2 = 1 then 3 else 1) * digitAt s i

lemma charDigit_le_nine (c : Char) (h : c.isDigit = true) : charDigit c ≤ 9 := by
  simp only [Char.isDigit, ge_iff_le, Bool.and_eq_true, decide_eq_true_eq] at h
  have h2 : c.toNat ≤ 57 := h.2
  simp only [charDigit]
  omega

/-- C1: for a string of exactly 13 digit characters, valid returns ok of the
boolean test that the 13th digit equals 10 minus (the weighted sum of the
first 12 digits modulo 10), the weight being 3 at odd 0-based positions and
1 at even ones, with no further reduction modulo 10; in particular when the
weighted sum is divisible by 10 the computed check is 10 and valid returns
ok false; any other input fails with invalidInput. -/
theorem valid_spec (s : String) :
    (valid s =
      if pyIsdigit s && s.length == 13 then
        .ok (decide (digitAt s 12 = 10 - weightedSum s % 10))
      else .error .invalidInput) ∧
    (pyIsdigit s = true → s.length = 13 → weightedSum s % 10 = 0 → valid s = .ok false) := by
  obtain ⟨l⟩ := s
  by_cases hc : (pyIsdigit ⟨l⟩ && (String.length ⟨l⟩ == 13)) = true
  · have hc2 := hc
    simp only [Bool.and_eq_true] at hc2
    obtain ⟨hd, hlb⟩ := hc2
    have hl : l.length = 13 := by simpa [String.length] using hlb
    have hpair : ¬l = [] ∧ ∀ x ∈ l, x.isDigit = true := by simpa [pyIsdigit] using hd
    have hdig := hpair.2
    rcases l with _ | ⟨c0, l⟩; · simp at hl
    rcases l with _ | ⟨c1, l⟩; · simp at hl
    rcases l with _ | ⟨c2, l⟩; · simp at hl
    rcases l with _ | ⟨c3, l⟩; · simp at hl
    rcases l with _ | ⟨c4, l⟩; · simp at hl
    rcases l with _ | ⟨c5, l⟩; · simp at hl
    rcases l with _ | ⟨c6, l⟩; · simp at hl
    rcases l with _ | ⟨c7, l⟩; · simp at hl
    rcases l with _ | ⟨c8, l⟩; · simp at hl
    rcases l with _ | ⟨c9, l⟩; · simp at hl
    rcases l with _ | ⟨c10, l⟩; · simp at hl
    rcases l with _ | ⟨c11, l⟩; · simp at hl
    rcases l with _ | ⟨c12, l⟩; · simp at hl
    rcases l with _ | ⟨c13, l⟩
    swap
    · simp at hl
    have hval : valid ⟨[c0,c1,c2,c3,c4,c5,c6,c7,c8,c9,c10,c11,c12]⟩ =
        if charDigit c12 = 10 -
            (charDigit c0 + (charDigit c1 * 3 + (charDigit c2 + (charDigit c3 * 3 +
             (charDigit c4 + (charDigit c5 * 3 + (charDigit c6 + (charDigit c7 * 3 +
             (charDigit c8 + (charDigit c9 * 3 + (charDigit c10 + charDigit c11 * 3))))))))))) % 10
          then .ok true else .ok false := by
      rw [valid, if_neg (by simp [hd, hlb])]
      have hr : List.range 12 = [0,1,2,3,4,5,6,7,8,9,10,11] := rfl
      simp only [List.map, hr, List.getD_cons_zero, List.getD_cons_succ, List.getLastD,
        List.sum_cons, List.sum_nil]
      norm_num
    have hws : weightedSum ⟨[c0,c1,c2,c3,c4,c5,c6,c7,c8,c9,c10,c11,c12]⟩ =
        charDigit c0 + charDigit c1 * 3 + charDigit c2 + charDigit c3 * 3 +
        charDigit c4 + charDigit c5 * 3 + charDigit c6 + charDigit c7 * 3 +
        charDigit c8 + charDigit c9 * 3 + charDigit c10 + charDigit c11 * 3 := by
      simp only [weightedSum, digitAt, Finset.sum_range_succ, Finset.sum_range_zero,
        List.getD_cons_zero, List.getD_cons_succ]
      norm_num
      ring
    have hda : digitAt ⟨[c0,c1,c2,c3,c4,c5,c6,c7,c8,c9,c10,c11,c12]⟩ 12 = charDigit c12 := by
      simp [digitAt, List.getD_cons_succ]
    have hnest : charDigit c0 + (charDigit c1 * 3 + (charDigit c2 + (charDigit c3 * 3 +
             (charDigit c4 + (charDigit c5 * 3 + (charDigit c6 + (charDigit c7 * 3 +
             (charDigit c8 + (charDigit c9 * 3 + (charDigit c10 + charDigit c11 * 3)))))))))) =
        charDigit c0 + charDigit c1 * 3 + charDigit c2 + charDigit c3 * 3 +
        charDigit c4 + charDigit c5 * 3 + charDigit c6 + charDigit c7 * 3 +
        charDigit c8 + charDigit c9 * 3 + charDigit c10 + charDigit c11 * 3 := by ring
    constructor
    · rw [if_pos hc, hval, hda, hws, hnest]
      by_cases he : charDigit c12 = 10 -
          (charDigit c0 + charDigit c1 * 3 + charDigit c2 + charDigit c3 * 3 +
           charDigit c4 + charDigit c5 * 3 + charDigit c6 + charDigit c7 * 3 +
           charDigit c8 + charDigit c9 * 3 + charDigit c10 + charDigit c11 * 3) % 10 <;>
        simp [he]
    · intro _ _ h0
      rw [hws] at h0
      have h12 : c12.isDigit = true := hdig c12 (by simp)
      have hle : charDigit c12 ≤ 9 := charDigit_le_nine c12 h12
      rw [hval, hnest, if_neg (by omega)]
  · constructor
    · rw [if_neg hc, valid, if_pos]
      simp only [Bool.and_eq_true, not_and] at hc
      rcases Bool.eq_false_or_eq_true (pyIsdigit ⟨l⟩) with ht | hf
      · simp only [ht, Bool.not_true, Bool.false_or]
        have hne := hc ht
        simp only [beq_iff_eq] at hne
        simp [bne, beq_iff_eq]
        exact hne
      · simp [hf]
    · intro hd hl
      exfalso
      apply hc
      have hl2 : l.length = 13 := hl
      simp [hd, String.length, hl2]

/-- C1 witness: a concrete all-zero 13-digit string whose weighted sum is
divisible by 10, on which valid returns ok false. -/
theorem valid_spec_witness :
    pyIsdigit "0000000000000" = true ∧ ("0000000000000" : String).length = 13 ∧
    weightedSum "0000000000000" % 10 = 0 ∧ valid "0000000000000" = .ok false :=
  ⟨by decide, by decide, by decide,
    (valid_spec "0000000000000").2 (by decide) (by decide) (by decide)⟩

/-- C2 counterexample: the claim says valid returns true on 9780099529126,
but the code computes check digit 5 for that prefix and returns false, so
the claimed conjunction is false. -/
theorem valid_catch22_counterexample :
    ¬ (valid "9780099529126" = .ok true ∧ valid "9780099529127" = .ok false) := by
  decide

/-- C2 amended: valid returns false on 9780099529126 (the weighted sum of
its first 12 digits is 125, so the computed check digit is 5, not 6; the
genuine published ISBN ends in 5) and false on 9780099529127 as well. -/
theorem valid_catch22_amended :
    valid "9780099529126" = .ok false ∧ valid "9780099529127" = .ok false := by
  decide

end bookData

namespace helperClass

/-- Chunking loop from wrap_text lines 137-139: while the word is longer
than the width, emit a width-sized prefix chunk and continue on the rest.
Fuel makes the definition total and computable; with fuel at least the word
length the fuel never runs out, and the source loops forever when width is
0 or negative, a case no claim exercises. -/
def hardSplitF : Nat → Nat → List Char → List (List Char) × List Char
  | 0, _, w => ([], w)
  | fuel + 1, width, w =>
    if width < w.length ∧ 0 < width then
      let r := hardSplitF fuel width (w.drop width)
      (w.take width :: r.1, r.2)
    else ([], w)

def hardSplit (width : Nat) (w : List Char) : List (List Char) × List Char :=
  hardSplitF w.length width w

/-- Python str.split with no separator: split on whitespace runs, dropping
empty pieces.  The first argument accumulates the current word reversed. -/
def pySplitGo : List Char → List Char → List (List Char)
  | cur, [] => if cur.isEmpty then [] else [cur.reverse]
  | cur, c :: rest =>
    if c.isWhitespace then
      if cur.isEmpty then pySplitGo [] rest
      else cur.reverse :: pySplitGo [] rest
    else pySplitGo (c :: cur) rest

def pySplit (l : List Char) : List (List Char) := pySplitGo [] l

/-- Main loop of wrap_text lines 135-146 over the word list: hard-split long
words into chunks, then greedily pack the remainder onto the current line. -/
def wrapLoop (width : Nat) : List (List Char) → List Char → List (List Char) → List (List Char) × List Char
  | [], cur, acc => (acc, cur)
  | w :: ws, cur, acc =>
    let hs := hardSplit width w
    if cur.length + hs.2.length + 1 ≤ width then
      wrapLoop width ws (cur ++ (if cur.isEmpty then [] else [' ']) ++ hs.2) (acc ++ hs.1)
    else
      wrapLoop width ws hs.2 (acc ++ hs.1 ++ [cur])

/-- Embeds helperClass.wrap_text (assignment3_code.py lines 98-152): newlines
become spaces, the text splits into words, and the words are wrapped into
lines of at most the given width. -/
def wrap_text (text : String) (width : Nat) : List String :=
  let cleaned := text.data.map (fun c => if c = '\n' then ' ' else c)
  let words := pySplit cleaned
  let r := wrapLoop width words [] []
  let lines := if r.2.isEmpty then r.1 else r.1 ++ [r.2]
  lines.map (fun l => String.mk l)

lemma hardSplitF_bound (width : Nat) (hw : 0 < width) :
    ∀ (fuel : Nat) (w : List Char), w.length ≤ fuel →
      (∀ c ∈ (hardSplitF fuel width w).1, c.length ≤ width) ∧
      (hardSplitF fuel width w).2.length ≤ width := by
  intro fuel
  induction fuel with
  | zero =>
    intro w hle
    have : w = [] := List.length_eq_zero.mp (by omega)
    subst this
    simp [hardSplitF]
  | succ fuel ih =>
    intro w hle
    rw [hardSplitF]
    by_cases h : width < w.length ∧ 0 < width
    · rw [if_pos h]
      have hdrop : (w.drop width).length ≤ fuel := by
        simp only [List.length_drop]
        omega
      have hb := ih (w.drop width) hdrop
      constructor
      · intro c hc
        rcases List.mem_cons.mp hc with rfl | hc
        · simp [List.length_take]
        · exact hb.1 c hc
      · exact hb.2
    · rw [if_neg h]
      refine ⟨by intro c hc; simp at hc, ?_⟩
      simp only
      omega

lemma hardSplit_bound (width : Nat) (w : List Char) (hw : 0 < width) :
    (∀ c ∈ (hardSplit width w).1, c.length ≤ width) ∧
    (hardSplit width w).2.length ≤ width :=
  hardSplitF_bound width hw w.length w le_rfl

lemma wrapLoop_bound (width : Nat) (hw : 0 < width) :
    ∀ (ws : List (List Char)) (cur : List Char) (acc : List (List Char)),
      cur.length ≤ width → (∀ l ∈ acc, l.length ≤ width) →
      (∀ l ∈ (wrapLoop width ws cur acc).1, l.length ≤ width) ∧
      (wrapLoop width ws cur acc).2.length ≤ width := by
  intro ws
  induction ws with
  | nil =>
    intro cur acc hcur hacc
    exact ⟨hacc, hcur⟩
  | cons w ws ih =>
    intro cur acc hcur hacc
    have hb := hardSplit_bound width w hw
    rw [wrapLoop]
    by_cases hfit : cur.length + (hardSplit width w).2.length + 1 ≤ width
    · simp only [hfit, if_pos]
      apply ih
      · rcases cur with _ | ⟨c0, cur⟩
        · simp
          omega
        · simp [List.length_append] at hfit ⊢
          omega
      · intro l hl
        rcases List.mem_append.mp hl with hl | hl
        · exact hacc l hl
        · exact hb.1 l hl
    · simp only [hfit, if_neg]
      apply ih
      · exact hb.2
      · intro l hl
        rcases List.mem_append.mp hl with hl | hl
        · rcases List.mem_append.mp hl with hl | hl
          · exact hacc l hl
          · exact hb.1 l hl
        · simp only [List.mem_singleton] at hl
          subst hl
          exact hcur

/-- C5: with any width of at least 1, every line produced by wrap_text has
length at most that width; in particular every line of the documented
example at width 10 has length at most 10. -/
theorem wrap_text_width (text : String) (width : Nat) (h : 1 ≤ width) :
    (∀ line ∈ wrap_text text width, line.length ≤ width) ∧
    (∀ line ∈ wrap_text "This is a demo of how to wrap text." 10, line.length ≤ 10) := by
  constructor
  · intro line hline
    simp only [wrap_text, List.mem_map] at hline
    obtain ⟨l, hl, rfl⟩ := hline
    have hb := wrapLoop_bound width (by omega)
      (pySplit (text.data.map (fun c => if c = '\n' then ' ' else c))) [] []
      (by simp) (by intro l hl; simp at hl)
    have hlen : (String.mk l).length = l.length := rfl
    rw [hlen]
    by_cases hemp : (wrapLoop width (pySplit (text.data.map (fun c => if c = '\n' then ' ' else c))) [] []).2.isEmpty
    · simp only [hemp, if_pos] at hl
      exact hb.1 l hl
    · simp only [hemp, Bool.false_eq_true, if_neg] at hl
      rcases List.mem_append.mp hl with hl | hl
      · exact hb.1 l hl
      · simp only [List.mem_singleton] at hl
        subst hl
        exact hb.2
  · intro line hline
    have hx : wrap_text "This is a demo of how to wrap text." 10 =
        ["This is a", "demo of", "how to", "wrap text."] := by decide
    rw [hx] at hline
    fin_cases hline <;> decide

/-- C5 witness: the documented example call at width 10, whose lines all
have length at most 10. -/
theorem wrap_text_width_witness :
    1 ≤ 10 ∧ ∀ line ∈ wrap_text "This is a demo of how to wrap text." 10, line.length ≤ 10 :=
  ⟨by decide, (wrap_text_width "This is a demo of how to wrap text." 10 (by decide)).1⟩

end helperClass

namespace helperClass

/-- Embeds helperClass.add_hyphen (assignment3_code.py lines 58-94): insert
a hyphen immediately before the given index, failing when the index is out
of the string bounds.  The integer type check of the source is carried by
the argument type. -/
def add_hyphen (to_string : String) (index : Int) : Except Err String :=
  if index < 0 ∨ index ≥ (to_string.length : Int) then .error .invalidInput
  else .ok (String.mk (to_string.data.take index.toNat ++ '-' :: to_string.data.drop index.toNat))


end helperClass

/-- Lowercasing a string as Python str.lower, ASCII range. -/
def pyLower (s : String) : String := String.mk (s.data.map Char.toLower)

/-- Python substring membership test, needle in hay. -/
def containsSub (needle : List Char) : List Char → Bool
  | [] => needle.isEmpty
  | c :: rest => needle.isPrefixOf (c :: rest) || containsSub needle rest

def pyIn (needle hay : String) : Bool := containsSub needle.data hay.data

/-- Code-point lexicographic comparison, as Python compares strings. -/
def strLt : List Char → List Char → Bool
  | [], [] => false
  | [], _ :: _ => true
  | _ :: _, [] => false
  | a :: as, b :: bs => if a < b then true else if b < a then false else strLt as bs

/-- Stable insertion: the new element goes before the first strictly greater
element, hence after every earlier equal element, matching the stability of
the built-in sorted. -/
def insertStable {α : Type} (lt : α → α → Bool) (a : α) : List α → List α
  | [] => [a]
  | b :: t => if lt a b then a :: b :: t else b :: insertStable lt a t

def sortStable {α : Type} (lt : α → α → Bool) (l : List α) : List α :=
  l.foldl (fun acc a => insertStable lt a acc) []

namespace bookData

structure Book where
  ISBN : String
  Title : String
  Author : String
  Price : ℚ
deriving DecidableEq, Repr

/-- The literal seed catalog at the top of assignment3_code.py. -/
def books : List Book :=
  [⟨"9781785150289", "Go Set a Watchman", "Harper Lee", 9.89⟩,
   ⟨"9780744016697", "The Legend of Zelda: Tri Force Heroes", "Prima Games", 14.99⟩,
   ⟨"9780099529126", "Catch-22", "Joseph Heller", 6.29⟩,
   ⟨"9780007447831", "A Clash of Kings", "George R. R. Martin", 4.95⟩,
   ⟨"9781853260001", "Pride and Prejudice", "Jane Austin", 1.99⟩,
   ⟨"9780099576853", "Casino Royale", "Ian Fleming", 6.79⟩,
   ⟨"9780099549482", "To Kill a Mockingbird", "Harper Lee", 4.99⟩,
   ⟨"9780333998667", "Fundamentals of Computer Architecture", "Mark Burrell", 41.10⟩,
   ⟨"9780701189358", "Simply Nigella: Feel Good Food", "Nigella Lawson", 12.50⟩]

/-- Embeds bookData.toISBN (lines 390-424): hyphens inserted sequentially at
offsets 3, 5, 9, 15 of the progressively growing string. -/
def toISBN (isbn : String) : Except Err String :=
  [3, 5, 9, 15].foldlM (fun acc i => helperClass.add_hyphen acc i) isbn

/-- Embeds bookData.printAllBooks (lines 513-576).  The rendered table is
console output and is dropped; what remains is the control flow that can
raise: formatting each displayed ISBN through toISBN.  Column widths and the
title wrapping are total computations on the held list. -/
def printAllBooks (bs : List Book) (lim : Option Nat) : Except Err Unit :=
  if bs.isEmpty then .ok ()
  else
    let shown := match lim with | some n => bs.take n | none => bs
    let _titleLines := shown.map (fun b => helperClass.wrap_text b.Title 18)
    match shown.mapM (fun b => toISBN b.ISBN) with
    | .ok _ => .ok ()
    | .error e => .error e

/-- Shared tail of the four filter and sort methods: build the new object
over the derived list, render it when show is set, and hand back the pair
(result, receiver state after the call).  The source bodies never assign
self.books, so the second component is the incoming list. -/
def dispPair (derived bs : List Book) (disp : Bool) : Except Err (List Book) × List Book :=
  if disp then
    match printAllBooks derived none with
    | .ok _ => (.ok derived, bs)
    | .error e => (.error e, bs)
  else (.ok derived, bs)

/-- Embeds bookData.printByTitle (lines 578-621): case-insensitive substring
filter on Title, new object over the filtered list, optional rendering. -/
def printByTitle (bs : List Book) (title : String) (disp : Bool) :
    Except Err (List Book) × List Book :=
  dispPair (bs.filter (fun b => pyIn (pyLower title) (pyLower b.Title))) bs disp

/-- Embeds bookData.printByAuthor (lines 624-667), same shape as
printByTitle with the Author field. -/
def printByAuthor (bs : List Book) (author : String) (disp : Bool) :
    Except Err (List Book) × List Book :=
  dispPair (bs.filter (fun b => pyIn (pyLower author) (pyLower b.Author))) bs disp

/-- Embeds bookData.printOverPrice (lines 670-712): keeps books strictly
above the price threshold. -/
def printOverPrice (bs : List Book) (price : ℚ) (disp : Bool) :
    Except Err (List Book) × List Book :=
  dispPair (bs.filter (fun b => decide (price < b.Price))) bs disp

/-- Sort key values: book fields are strings or rationals. -/
inductive BookVal
  | s (v : String)
  | q (v : ℚ)
deriving DecidableEq, Repr

/-- Python dict access book[k] for the fixed book schema. -/
def bookField (b : Book) (k : String) : Option BookVal :=
  if k = "ISBN" then some (.s b.ISBN)
  else if k = "Title" then some (.s b.Title)
  else if k = "Author" then some (.s b.Author)
  else if k = "Price" then some (.q b.Price)
  else none

/-- Strict comparison on sort keys.  For a fixed field name the two values
always have the same constructor, so the mixed cases never arise. -/
def bvLt : BookVal → BookVal → Bool
  | .s a, .s b => strLt a.data b.data
  | .q a, .q b => decide (a < b)
  | _, _ => false

/-- The sorted-and-truncated list printAllBooksSorted builds on success. -/
def sortedBooks (bs : List Book) (sortedBy : String) (rev : Bool) (lim : Option Nat) :
    List Book :=
  let lt := fun a b : Book =>
    bvLt ((bookField a sortedBy).getD (.s "")) ((bookField b sortedBy).getD (.s ""))
  let cmp := if rev then (fun a b => lt b a) else lt
  let sorted := sortStable cmp bs
  match lim with | some n => sorted.take n | none => sorted

/-- Embeds bookData.printAllBooksSorted (lines 715-762).  The membership
check lowercases the field name, but the sort key uses it with its original
case, so a name that matches only case-insensitively raises KeyError while
the keys are evaluated; the mapM models that decoration pass of the
built-in sorted. -/
def printAllBooksSorted (bs : List Book) (sortedBy : String)
    (reverse_param : Bool) (disp : Bool) (lim : Option Nat) :
    Except Err (List Book) × List Book :=
  if !(pyLower sortedBy == "price" || pyLower sortedBy == "title" || pyLower sortedBy == "author") then
    (.error .invalidInput, bs)
  else
    match bs.mapM (fun b => (bookField b sortedBy).elim (Except.error Err.keyError) Except.ok) with
    | .error e => (.error e, bs)
    | .ok _ => dispPair (sortedBooks bs sortedBy reverse_param lim) bs disp

lemma dispPair_spec (derived bs : List Book) (disp : Bool) :
    (dispPair derived bs disp).2 = bs ∧
    ∀ r, (dispPair derived bs disp).1 = .ok r → r = derived := by
  unfold dispPair
  cases disp
  · refine ⟨rfl, ?_⟩
    intro r h
    injection h with h
    exact h.symm
  · cases hp : printAllBooks derived none with
    | ok u =>
      refine ⟨rfl, ?_⟩
      intro r h
      injection h with h
      exact h.symm
    | error e =>
      refine ⟨rfl, ?_⟩
      intro r h
      cases h

/-- C4: the four filter and sort operations never change the receiver state,
whatever their arguments and outcome, and on success the returned object
wraps the newly built filtered, respectively sorted and truncated, list. -/
theorem filter_sort_frame (bs : List Book) (title author sortedBy : String)
    (price : ℚ) (rev disp : Bool) (lim : Option Nat) :
    (printByTitle bs title disp).2 = bs ∧
    (printByAuthor bs author disp).2 = bs ∧
    (printOverPrice bs price disp).2 = bs ∧
    (printAllBooksSorted bs sortedBy rev disp lim).2 = bs ∧
    (∀ r, (printByTitle bs title disp).1 = .ok r →
      r = bs.filter (fun b => pyIn (pyLower title) (pyLower b.Title))) ∧
    (∀ r, (printByAuthor bs author disp).1 = .ok r →
      r = bs.filter (fun b => pyIn (pyLower author) (pyLower b.Author))) ∧
    (∀ r, (printOverPrice bs price disp).1 = .ok r →
      r = bs.filter (fun b => decide (price < b.Price))) ∧
    (∀ r, (printAllBooksSorted bs sortedBy rev disp lim).1 = .ok r →
      r = sortedBooks bs sortedBy rev lim) := by
  have hsorted : (printAllBooksSorted bs sortedBy rev disp lim).2 = bs ∧
      ∀ r, (printAllBooksSorted bs sortedBy rev disp lim).1 = .ok r →
        r = sortedBooks bs sortedBy rev lim := by
    unfold printAllBooksSorted
    by_cases hv : (!(pyLower sortedBy == "price" || pyLower sortedBy == "title" ||
        pyLower sortedBy == "author")) = true
    · rw [if_pos hv]
      exact ⟨rfl, fun r h => by cases h⟩
    · rw [if_neg hv]
      cases hm : bs.mapM
          (fun b => (bookField b sortedBy).elim (Except.error Err.keyError) Except.ok) with
      | error e => exact ⟨rfl, fun r h => by cases h⟩
      | ok u => exact dispPair_spec _ _ _
  exact ⟨(dispPair_spec _ _ _).1, (dispPair_spec _ _ _).1, (dispPair_spec _ _ _).1,
    hsorted.1, (dispPair_spec _ _ _).2, (dispPair_spec _ _ _).2, (dispPair_spec _ _ _).2,
    hsorted.2⟩

/-- C4 witness: the seed catalog filtered by a concrete title fragment, with
the receiver list unchanged and the result the newly filtered list. -/
theorem filter_sort_frame_witness :
    ([⟨"9781785150289", "Go Set a Watchman", "Harper Lee", 9.89⟩] : List Book) =
      books.filter (fun b => pyIn (pyLower "watchman") (pyLower b.Title)) ∧
    (printByTitle books "watchman" false).2 = books :=
  ⟨(filter_sort_frame books "watchman" "x" "Price" 0 false false none).2.2.2.2.1
      [⟨"9781785150289", "Go Set a Watchman", "Harper Lee", 9.89⟩] (by rfl),
    (filter_sort_frame books "watchman" "x" "Price" 0 false false none).1⟩

/-- Loop body of validateISBNs: check each book in order, collecting the
ones whose ISBN passes valid; a raise from valid aborts the whole loop. -/
def validLoop : List Book → Except Err (List Book)
  | [] => .ok []
  | b :: rest => do
    let keep ← valid b.ISBN
    let restValid ← validLoop rest
    if keep then pure (b :: restValid) else pure restValid

/-- Embeds bookData.validateISBNs (lines 479-511).  The held list is
assigned only after the loop over every book has finished, so a validation
error leaves the receiver state, the second component, unchanged. -/
def validateISBNs (bs : List Book) : Except Err (List Book) × List Book :=
  match validLoop bs with
  | .ok v => (.ok v, v)
  | .error e => (.error e, bs)

lemma valid_shape_error (s : String) (h : (pyIsdigit s && s.length == 13) = false) :
    valid s = .error .invalidInput := by
  rw [valid, if_pos]
  rw [show (!(pyIsdigit s) || s.length != 13) = !(pyIsdigit s && s.length == 13) from by
    simp [bne, Bool.not_and]]
  rw [h]
  rfl

lemma valid_shape_ok (s : String) (h : (pyIsdigit s && s.length == 13) = true) :
    ∃ b, valid s = .ok b := by
  rw [valid]
  rw [if_neg]
  · by_cases hl : ((s.data.map charDigit).getLastD 0 ≠
        10 - ((List.range 12).map (fun i =>
          if i % 2 = 1 then (s.data.map charDigit).getD i 0 * 3
          else (s.data.map charDigit).getD i 0)).sum % 10)
    · exact ⟨false, by rw [if_pos hl]⟩
    · exact ⟨true, by rw [if_neg hl]⟩
  · rw [show (!(pyIsdigit s) || s.length != 13) = !(pyIsdigit s && s.length == 13) from by
      simp [bne, Bool.not_and]]
    simp [h]

lemma validLoop_error (bs : List Book)
    (h : ∃ b ∈ bs, (pyIsdigit b.ISBN && b.ISBN.length == 13) = false) :
    validLoop bs = .error .invalidInput := by
  induction bs with
  | nil => simp at h
  | cons hd tl ih =>
    obtain ⟨b, hb, hbad⟩ := h
    rcases List.mem_cons.mp hb with rfl | hmem
    · rw [validLoop]
      rw [show valid b.ISBN = .error .invalidInput from valid_shape_error _ hbad]
      rfl
    · rw [validLoop]
      rcases hs : (pyIsdigit hd.ISBN && hd.ISBN.length == 13) with _ | _
      · rw [show valid hd.ISBN = .error .invalidInput from valid_shape_error _ hs]
        rfl
      · obtain ⟨v, hv⟩ := valid_shape_ok hd.ISBN hs
        rw [hv]
        have htl := ih ⟨b, hmem, hbad⟩
        rw [show validLoop tl = .error .invalidInput from htl]
        rfl

lemma validLoop_ok (bs : List Book)
    (h : ∀ b ∈ bs, (pyIsdigit b.ISBN && b.ISBN.length == 13) = true) :
    validLoop bs = .ok (bs.filter (fun b => valid b.ISBN == .ok true)) := by
  induction bs with
  | nil => rfl
  | cons hd tl ih =>
    obtain ⟨v, hv⟩ := valid_shape_ok hd.ISBN (h hd (List.mem_cons_self hd tl))
    have htl := ih (fun b hb => h b (List.mem_cons_of_mem hd hb))
    rw [validLoop, hv, htl]
    cases v with
    | false =>
      have hp : (valid hd.ISBN == Except.ok true) = false := by rw [hv]; rfl
      rw [List.filter_cons, hp]
      rfl
    | true =>
      have hp : (valid hd.ISBN == Except.ok true) = true := by rw [hv]; rfl
      rw [List.filter_cons, hp]
      rfl

/-- C10: when some held book has an ISBN that is not exactly 13 digit
characters, validateISBNs propagates invalidInput from valid and the held
list is unchanged; when every ISBN has the right shape, the loop finishes
and only then is the held list replaced by the valid subset. -/
theorem validateISBNs_all_or_nothing (bs : List Book) :
    ((∃ b ∈ bs, (pyIsdigit b.ISBN && b.ISBN.length == 13) = false) →
      validateISBNs bs = (.error .invalidInput, bs)) ∧
    ((∀ b ∈ bs, (pyIsdigit b.ISBN && b.ISBN.length == 13) = true) →
      validateISBNs bs =
        (.ok (bs.filter (fun b => valid b.ISBN == .ok true)),
         bs.filter (fun b => valid b.ISBN == .ok true))) := by
  constructor
  · intro h
    unfold validateISBNs
    rw [validLoop_error bs h]
  · intro h
    unfold validateISBNs
    rw [validLoop_ok bs h]

/-- C10 witness: a catalog holding one malformed ISBN fails with
invalidInput and keeps its held list. -/
theorem validateISBNs_all_or_nothing_witness :
    validateISBNs [⟨"123", "Bad", "X", 1⟩] =
      (.error .invalidInput, [⟨"123", "Bad", "X", 1⟩]) :=
  (validateISBNs_all_or_nothing [⟨"123", "Bad", "X", 1⟩]).1
    ⟨⟨"123", "Bad", "X", 1⟩, by simp, by decide⟩

end bookData

namespace helperClass

/-- Embeds helperClass.preview_limit (assignment3_code.py lines 155-188):
text longer than the limit is cut to the limit and suffixed with dots. -/
def preview_limit (text : String) (max_length : Nat) : String :=
  if text.length > max_length then String.mk (text.data.take max_length) ++ "..." else text

end helperClass

namespace commentData

/-- Comment record: the five fields of the fetched JSON records, plus the
optional enrichment field post_info that add_field may install.  A missing
post_info models a record whose dictionary has only the five core keys. -/
structure Comment where
  id : Int
  postId : Int
  name : String
  email : String
  body : String
  post_info : Option String
deriving DecidableEq, Repr

/-- Key set of the record dictionary, in JSON insertion order, with the
enrichment key last when present. -/
def commentKeys (c : Comment) : List String :=
  ["postId", "id", "name", "email", "body"] ++
    (if c.post_info.isSome then ["post_info"] else [])

/-- Values held by comment fields: integers or strings. -/
inductive PyVal
  | i (v : Int)
  | s (v : String)
deriving DecidableEq, Repr

/-- Python dict get on the comment schema: none for a key that the record
does not carry. -/
def getVar (c : Comment) (k : String) : Option PyVal :=
  if k = "postId" then some (.i c.postId)
  else if k = "id" then some (.i c.id)
  else if k = "name" then some (.s c.name)
  else if k = "email" then some (.s c.email)
  else if k = "body" then some (.s c.body)
  else if k = "post_info" then c.post_info.map .s
  else none

/-- Strict comparison on field values; a fixed sort key always yields values
of one constructor, so the mixed cases never arise. -/
def pvLt : PyVal → PyVal → Bool
  | .i a, .i b => decide (a < b)
  | .s a, .s b => strLt a.data b.data
  | _, _ => false

/-- Embeds commentData.printAllComments (lines 783-898).  The very first
statement of the source reads self.comments[0].keys(), so the empty
collection raises IndexError before anything else; on a nonempty collection
the method only wraps, pads and prints, all total computations whose text
is console output, dropped here.  A limit of 0 is falsy in the source and
means no truncation. -/
def printAllComments (cs : List Comment) (wrap_width : Nat)
    (preview_only : Bool) (lim : Option Nat) : Except Err Unit :=
  match cs with
  | [] => .error .indexError
  | c0 :: _ =>
    let _post_info_flag := c0.post_info.isSome
    let _shown := match lim with
      | some 0 => cs
      | some n => cs.take n
      | none => cs
    .ok ()

/-- Filter loop of printByVar (lines 952-959): a string field matches by
case-insensitive containment, which evaluates value.lower() and therefore
raises AttributeError when the probe value is an integer; a numeric field
matches by equality, where comparing against a string is simply false; a
record lacking the key is skipped. -/
def matchLoop (var : String) (value : PyVal) : List Comment → Except Err (List Comment)
  | [] => .ok []
  | c :: rest => do
    let keep ← (match getVar c var, value with
      | some (.s cv), .s v => .ok (pyIn (pyLower v) (pyLower cv))
      | some (.s _), .i _ => .error .attributeError
      | some (.i cv), .i n => .ok (cv == n)
      | some (.i _), .s _ => .ok false
      | none, _ => .ok false : Except Err Bool)
    let rest2 ← matchLoop var value rest
    pure (if keep then c :: rest2 else rest2)

/-- Embeds commentData.printByVar (lines 901-973): validates the field name
against the key set of the first record, filters, and returns a new object
over the matches, or the receiver itself when nothing matches. -/
def printByVar (cs : List Comment) (var : String) (value : PyVal)
    (disp : Bool) (preview_only : Bool) : Except Err (List Comment) :=
  match cs with
  | [] => .error .indexError
  | c0 :: _ =>
    if var ∉ commentKeys c0 then .error .invalidInput
    else do
      let filtered ← matchLoop var value cs
      if filtered.isEmpty then
        pure cs
      else
        if disp then
          match (if preview_only then printAllComments filtered 24 true none
                 else printAllComments filtered 24 false none) with
          | .ok _ => pure filtered
          | .error e => .error e
        else pure filtered

/-- Embeds commentData.printOverVar (lines 976-1040): restricts to the
numeric keys of the first record, keeps records strictly above the
threshold, truncates, and returns a new object, or none when the filtered
set is empty and the source falls off the function returning None. -/
def printOverVar (cs : List Comment) (var : String) (value : Int)
    (disp : Bool) (preview_only : Bool) (lim : Option Nat) :
    Except Err (Option (List Comment)) :=
  match cs with
  | [] => .error .indexError
  | c0 :: _ =>
    let num_vars := (commentKeys c0).filter (fun k =>
      match getVar c0 k with
      | some (.i _) => true
      | _ => false)
    if var ∉ num_vars then .error .invalidInput
    else
      let filtered := cs.filter (fun c =>
        match getVar c var with
        | some (.i n) => decide (value < n)
        | _ => false)
      let filtered := match lim with | some n => filtered.take n | none => filtered
      if filtered.isEmpty then .ok none
      else
        if disp then
          match (if preview_only then printAllComments filtered 24 true none
                 else printAllComments filtered 24 false none) with
          | .ok _ => .ok (some filtered)
          | .error e => .error e
        else .ok (some filtered)

/-- Embeds commentData.printCommentsSorted (lines 1044-1094): any key of the
first record except body may be the sort key; the mapM models the decoration
pass of the built-in sorted, raising KeyError when a later record lacks the
key; the sort is stable, optionally reversed and truncated. -/
def printCommentsSorted (cs : List Comment) (sortVar : String) (reverse_param : Bool)
    (disp : Bool) (preview_only : Bool) (lim : Option Nat) : Except Err (List Comment) :=
  match cs with
  | [] => .error .indexError
  | c0 :: _ =>
    let sort_vars := (commentKeys c0).filter (fun k => k ≠ "body")
    if sortVar ∉ sort_vars then .error .invalidInput
    else
      match cs.mapM (fun c => (getVar c sortVar).elim (Except.error Err.keyError) Except.ok) with
      | .error e => .error e
      | .ok _ =>
        let lt := fun a b : Comment =>
          pvLt ((getVar a sortVar).getD (.s "")) ((getVar b sortVar).getD (.s ""))
        let cmp := if reverse_param then (fun a b => lt b a) else lt
        let sorted := sortStable cmp cs
        let sorted := match lim with | some n => sorted.take n | none => sorted
        if disp then
          match (if preview_only then printAllComments sorted 24 true none
                 else printAllComments sorted 24 false none) with
          | .ok _ => .ok sorted
          | .error e => .error e
        else .ok sorted

/-- Enrichment pass of add_field (lines 1132-1140): every record receives a
post_info string built from the three random generators, modelled as oracles
indexed by the position of the record in the collection. -/
def addInfo (gt gd gi : Nat → String) : Nat → List Comment → List Comment
  | _, [] => []
  | i, c :: rest =>
    { c with post_info := some ("Time: " ++ gt i ++ "\n" ++ "Date: " ++ gd i ++
        "\n" ++ "IP address: " ++ gi i) } :: addInfo gt gd gi (i + 1) rest

/-- Embeds commentData.add_field (lines 1097-1147): reads the key set of the
first record (IndexError on an empty collection), does nothing when
post_info is already present on the schema, and otherwise enriches every
record in place and optionally renders. -/
def add_field (gt gd gi : Nat → String) (cs : List Comment)
    (disp : Bool) (preview_only : Bool) (limit_field : Option Nat) :
    Except Err (List Comment) :=
  match cs with
  | [] => .error .indexError
  | c0 :: _ =>
    if "post_info" ∈ commentKeys c0 then .ok cs
    else
      let updated := addInfo gt gd gi 0 cs
      if disp then
        match (if preview_only then printAllComments updated 11 true limit_field
               else printAllComments updated 24 false limit_field) with
        | .ok _ => .ok updated
        | .error e => .error e
      else .ok updated

lemma post_info_mem (c : Comment) :
    ("post_info" ∈ commentKeys c) ↔ c.post_info.isSome = true := by
  cases h : c.post_info <;> simp [commentKeys, h]

/-- C8: add_field is idempotent on a nonempty collection: whatever a first
call returned, a second call with any generators and display options returns
the same collection unchanged, because the post_info key is then present on
the first record and the enrichment pass is skipped. -/
theorem add_field_idempotent (gt gd gi gt2 gd2 gi2 : Nat → String)
    (cs cs2 : List Comment) (disp pv disp2 pv2 : Bool) (lim lim2 : Option Nat)
    (hne : cs ≠ [])
    (h : add_field gt gd gi cs disp pv lim = .ok cs2) :
    add_field gt2 gd2 gi2 cs2 disp2 pv2 lim2 = .ok cs2 := by
  rcases cs with _ | ⟨c0, tl⟩
  · exact absurd rfl hne
  · by_cases hp : "post_info" ∈ commentKeys c0
    · rw [add_field, if_pos hp] at h
      injection h with h
      subst h
      rw [add_field, if_pos hp]
    · rw [add_field, if_neg hp] at h
      have h2 : (Except.ok (addInfo gt gd gi 0 (c0 :: tl)) : Except Err (List Comment)) =
          Except.ok cs2 := by
        cases disp
        · exact h
        · cases pv
          · exact h
          · exact h
      injection h2 with h2
      rw [← h2]
      simp [add_field, addInfo, commentKeys]

/-- C8 witness: a one-record collection without post_info, enriched by a
first call; a second call with different generators returns it unchanged. -/
theorem add_field_idempotent_witness :
    ([(⟨1, 1, "n", "e", "b", none⟩ : Comment)] ≠ ([] : List Comment)) ∧
    add_field (fun _ => "x") (fun _ => "y") (fun _ => "z")
      [⟨1, 1, "n", "e", "b", none⟩] false true none =
      .ok [⟨1, 1, "n", "e", "b", some "Time: x\nDate: y\nIP address: z"⟩] ∧
    add_field (fun _ => "x2") (fun _ => "y2") (fun _ => "z2")
      [⟨1, 1, "n", "e", "b", some "Time: x\nDate: y\nIP address: z"⟩]
      true false (some 1) =
      .ok [⟨1, 1, "n", "e", "b", some "Time: x\nDate: y\nIP address: z"⟩] :=
  ⟨by simp, rfl,
    add_field_idempotent (fun _ => "x") (fun _ => "y") (fun _ => "z")
      (fun _ => "x2") (fun _ => "y2") (fun _ => "z2")
      [⟨1, 1, "n", "e", "b", none⟩]
      [⟨1, 1, "n", "e", "b", some "Time: x\nDate: y\nIP address: z"⟩]
      false true true false none (some 1) (by simp) rfl⟩

/-- C9: every operation that consults the record schema fails with
IndexError on the empty collection, whatever its other arguments, because
each begins by reading the key set of the first held record; none of them
prints a table or returns a collection. -/
theorem empty_repository_fails (wrap_width : Nat) (preview_only disp rev pv2 : Bool)
    (lim : Option Nat) (var sortVar : String) (value : PyVal) (threshold : Int)
    (gt gd gi : Nat → String) :
    printAllComments [] wrap_width preview_only lim = .error .indexError ∧
    printByVar [] var value disp preview_only = .error .indexError ∧
    printOverVar [] var threshold disp preview_only lim = .error .indexError ∧
    printCommentsSorted [] sortVar rev disp pv2 lim = .error .indexError ∧
    add_field gt gd gi [] disp preview_only lim = .error .indexError :=
  ⟨rfl, rfl, rfl, rfl, rfl⟩

end commentData

namespace TimeAndMemory

/-- One benchmark result row: Size, Time (s), Memory (bytes).  The float
literals of the source are exact decimals, represented here as rationals. -/
structure BenchRow where
  size : ℚ
  time : ℚ
  mem : ℚ
deriving DecidableEq, Repr

/-- The hard-coded mat_mult table of TimeAndMemory.__init__ (A2.py lines
780-784). -/
def matMultTable : List BenchRow :=
  [⟨15.0, 0.007217, 69632.0⟩, ⟨30.0, 0.079013, 77824.0⟩, ⟨45.0, 0.262462, 118784.0⟩,
   ⟨60.0, 0.661467, 147456.0⟩, ⟨75.0, 1.452451, 200704.0⟩, ⟨90.0, 2.369175, 241664.0⟩,
   ⟨105.0, 3.473095, 430080.0⟩, ⟨120.0, 5.244003, 483328.0⟩, ⟨135.0, 7.414388, 544768.0⟩,
   ⟨150.0, 10.134657, 610304.0⟩]

/-- The hard-coded mat_mult_np table (lines 786-790). -/
def matMultNpTable : List BenchRow :=
  [⟨500.0, 0.030703, 2097152.0⟩, ⟨1000.0, 0.121913, 5853184.0⟩, ⟨1500.0, 0.309546, 8491008.0⟩,
   ⟨2000.0, 0.597226, 9031680.0⟩, ⟨2500.0, 0.994957, 10604544.0⟩, ⟨3000.0, 1.622734, 12177408.0⟩,
   ⟨3500.0, 2.379991, 13692928.0⟩, ⟨4000.0, 3.268138, 15065088.0⟩, ⟨4500.0, 4.443916, 16896000.0⟩,
   ⟨5000.0, 5.982008, 18468864.0⟩]

/-- The hard-coded sort_ints table (lines 792-796). -/
def sortIntsTable : List BenchRow :=
  [⟨400, 0.082925, 40960⟩, ⟨800, 0.200214, 40960⟩, ⟨1200, 0.451068, 40960⟩,
   ⟨1600, 0.997305, 40960⟩, ⟨2000, 1.469594, 40960⟩, ⟨2400, 3.735391, 40960⟩,
   ⟨2800, 4.827899, 57344⟩, ⟨3200, 6.239969, 57344⟩, ⟨3600, 8.044682, 57344⟩,
   ⟨4000, 9.797529, 77824⟩]

/-- The hard-coded substring_inv table (lines 798-802). -/
def substringInvTable : List BenchRow :=
  [⟨1000, 0.001513, 163840⟩, ⟨2000, 0.002078, 299008⟩, ⟨3000, 0.003120, 413696⟩,
   ⟨4000, 0.004072, 528384⟩, ⟨5000, 0.005971, 638976⟩, ⟨6000, 0.007802, 733184⟩,
   ⟨7000, 0.008427, 901120⟩, ⟨8000, 0.009420, 995328⟩, ⟨9000, 0.010666, 1175552⟩,
   ⟨10000, 0.011602, 1269760⟩]

/-- The hard-coded python_find_inv table (lines 804-808). -/
def pythonFindInvTable : List BenchRow :=
  [⟨1000, 0.002591, 163840⟩, ⟨2000, 0.002223, 307200⟩, ⟨3000, 0.004204, 425984⟩,
   ⟨4000, 0.006453, 532480⟩, ⟨5000, 0.004950, 679936⟩, ⟨6000, 0.005067, 798720⟩,
   ⟨7000, 0.009603, 888832⟩, ⟨8000, 0.009444, 999424⟩, ⟨9000, 0.007722, 1142784⟩,
   ⟨10000, 0.008916, 1282048⟩]

/-- The results dictionary: algorithm name to stored table. -/
def ResultsMap : Type := String → Option (List BenchRow)

/-- The results mapping right after TimeAndMemory.__init__ (lines 774-808):
the five hard-coded tables and nothing else. -/
def initResults : ResultsMap := fun n =>
  if n = "mat_mult" then some matMultTable
  else if n = "mat_mult_np" then some matMultNpTable
  else if n = "sort_ints" then some sortIntsTable
  else if n = "substring_inv" then some substringInvTable
  else if n = "python_find_inv" then some pythonFindInvTable
  else none

/-- Embeds TimeAndMemory.save_results (A2.py lines 1105-1132): a recognised
name updates the mapping; any other name reaches a line that merely
constructs a ValueError without raising it, so the call returns normally
and the mapping is untouched. -/
def save_results (results : ResultsMap) (name : String) (func_df : List BenchRow) :
    Except Err ResultsMap :=
  if name = "mat_mult" ∨ name = "mat_mult_np" ∨ name = "sort_ints" ∨
      name = "substring_inv" ∨ name = "python_find_inv" then
    .ok (fun n => if n = name then some func_df else results n)
  else
    .ok results

/-- Embeds TimeAndMemory.investigate (A2.py lines 1136-1236).  With
submission set, the stored table for the name is returned, or ValueError is
raised when none exists, and nothing else happens.  A live run seeds the
global generator, manipulates garbage collection and reads wall-clock time
and resident memory; those environment effects are abstracted into the
measure oracle giving the (time, memory) pair observed for each size. -/
def investigate (measure : Nat → ℚ × ℚ) (results : ResultsMap) (name : String)
    (step_size : Nat) (submission : Bool) : Except Err (List BenchRow × ResultsMap) :=
  if submission then
    match results name with
    | some t => .ok (t, results)
    | none => .error .invalidInput
  else
    let rows := (List.range 10).map (fun i =>
      let size := (i + 1) * step_size
      let m := measure size
      ⟨(size : ℚ), m.1, m.2⟩)
    match save_results results name rows with
    | .ok results2 => .ok (rows, results2)
    | .error e => .error e

/-- C3: in submission mode investigate returns exactly the stored table and
the results mapping unchanged, independently of the measurement oracle, so
no live measurement is taken; a name without a stored table fails with
invalidInput; and on the freshly constructed mapping the table for mat_mult
starts with Size 15.0, Time 0.007217, Memory 69632.0. -/
theorem investigate_submission_spec (measure : Nat → ℚ × ℚ) (results : ResultsMap)
    (name : String) (step_size : Nat) :
    (∀ t, results name = some t →
      investigate measure results name step_size true = .ok (t, results)) ∧
    (results name = none →
      investigate measure results name step_size true = .error .invalidInput) ∧
    initResults "mat_mult" = some matMultTable ∧
    matMultTable.head? = some ⟨15.0, 0.007217, 69632.0⟩ := by
  refine ⟨?_, ?_, rfl, rfl⟩
  · intro t ht
    simp [investigate, ht]
  · intro ht
    simp [investigate, ht]

/-- C3 witness: submission mode on the fresh mapping returns the mat_mult
table and leaves the mapping untouched, for an arbitrary oracle. -/
theorem investigate_submission_spec_witness :
    investigate (fun _ => (0, 0)) initResults "mat_mult" 10 true =
      .ok (matMultTable, initResults) :=
  (investigate_submission_spec (fun _ => (0, 0)) initResults "mat_mult" 10).1
    matMultTable (by simp [initResults])

/-- C7: the claim says an unrecognised name signals invalidInput, but the
source only constructs the exception, so save_results returns normally with
the mapping unchanged; evaluating the code at the failing input shows the
normal return. -/
theorem save_results_unrecognized :
    save_results initResults "bogus" [] = .ok initResults ∧
    save_results initResults "bogus" [] ≠ .error .invalidInput := by
  have h : save_results initResults "bogus" [] = .ok initResults := by
    simp [save_results]
  refine ⟨h, ?_⟩
  rw [h]
  simp

end TimeAndMemory

namespace CleanerClass

/-- Rounding to two decimals.  Python round operates on the binary float
with ties to even; the claims never exercise a tie, so the decimal half-up
idealisation is observationally equal on every input that matters. -/
def round2 (q : ℚ) : ℚ := ((⌊q * 100 + 1 / 2⌋ : ℤ) : ℚ) / 100

/-- Embeds CleanerClass.count_removed_rows (A2.py lines 376-418), which only
consults the row counts of its two tables.  The isinstance guard of the
source constructs a TypeError without raising it, a no-op.  When the second
table is larger the raise statement is reached, but its message f-string
reads the undefined names original_len and new_len, so the call fails with
NameError before the ValueError exists.  When both tables are empty the
percentage computation divides by zero. -/
def count_removed_rows (df1_len df2_len : Nat) : Except Err (Nat × ℚ) :=
  if df1_len < df2_len then
    .error .nameError
  else if df1_len = 0 then
    .error .zeroDivisionError
  else
    let removed_rows := df1_len - df2_len
    let perc_removed := round2 (((removed_rows : ℚ) / (df1_len : ℚ)) * 100)
    .ok (removed_rows, perc_removed)

/-- C6: on a before table of 10 rows and an after table of 12 rows the code
fails, but with NameError from the undefined names in the error message,
not with the InvalidState failure the claim describes. -/
theorem count_removed_rows_oversized :
    count_removed_rows 10 12 = .error .nameError ∧
    count_removed_rows 10 12 ≠ .error .invalidState := by
  refine ⟨rfl, ?_⟩
  rw [show count_removed_rows 10 12 = .error .nameError from rfl]
  simp

end CleanerClass
